import Mathlib

/-!
Verification of the dio local object store core (`util.go` and the `cmd`
package): deterministic commit/tree identity hashing, content-addressed blob
storage, and per-database index bookkeeping.

Byte sequences are modelled as `List Nat` (each element a byte value).  Go
strings are byte strings, so every string-typed field of the Go structs is a
`List Nat` here.  The `time.Time` commit timestamp only ever enters the code
through its `time.UnixDate` rendering, so the model carries that rendered
byte string directly in the `Timestamp` field.
-/

set_option autoImplicit false
set_option maxRecDepth 100000

namespace Dio

/-- Bytes of an ASCII string literal. -/
def str (s : String) : List Nat := s.toList.map Char.toNat

/-- Concatenation of a list of byte lists. -/
def concatAll {α : Type} : List (List α) → List α
  | [] => []
  | x :: xs => x ++ concatAll xs

/-! ## SHA-256 (crypto/sha256), executable over byte lists -/

/-- Word size modulus 2^32. -/
def w32 : Nat := 4294967296

/-- Right rotation of a 32-bit word by `k` bits. -/
def rotr (k n : Nat) : Nat := ((n >>> k) ||| (n <<< (32 - k))) % w32

/-- SHA-256 Ch function. -/
def ch (x y z : Nat) : Nat := (x &&& y) ^^^ ((x ^^^ 4294967295) &&& z)

/-- SHA-256 Maj function. -/
def maj (x y z : Nat) : Nat := (x &&& y) ^^^ (x &&& z) ^^^ (y &&& z)

/-- SHA-256 big Sigma0. -/
def bigSigma0 (x : Nat) : Nat := rotr 2 x ^^^ rotr 13 x ^^^ rotr 22 x

/-- SHA-256 big Sigma1. -/
def bigSigma1 (x : Nat) : Nat := rotr 6 x ^^^ rotr 11 x ^^^ rotr 25 x

/-- SHA-256 small sigma0. -/
def smallSigma0 (x : Nat) : Nat := rotr 7 x ^^^ rotr 18 x ^^^ (x >>> 3)

/-- SHA-256 small sigma1. -/
def smallSigma1 (x : Nat) : Nat := rotr 17 x ^^^ rotr 19 x ^^^ (x >>> 10)

/-- The 64 SHA-256 round constants (FIPS 180-4, written in decimal). -/
def K64 : List Nat :=
  [1116352408, 1899447441, 3049323471, 3921009573, 961987163, 1508970993,
   2453635748, 2870763221, 3624381080, 310598401, 607225278, 1426881987,
   1925078388, 2162078206, 2614888103, 3248222580, 3835390401, 4022224774,
   264347078, 604807628, 770255983, 1249150122, 1555081692, 1996064986,
   2554220882, 2821834349, 2952996808, 3210313671, 3336571891, 3584528711,
   113926993, 338241895, 666307205, 773529912, 1294757372, 1396182291,
   1695183700, 1986661051, 2177026350, 2456956037, 2730485921, 2820302411,
   3259730800, 3345764771, 3516065817, 3600352804, 4094571909, 275423344,
   430227734, 506948616, 659060556, 883997877, 958139571, 1322822218,
   1537002063, 1747873779, 1955562222, 2024104815, 2227730452, 2361852424,
   2428436474, 2756734187, 3204031479, 3329325298]

/-- The initial SHA-256 hash state (FIPS 180-4, written in decimal). -/
def H0 : List Nat :=
  [1779033703, 3144134277, 1013904242, 2773480762,
   1359893119, 2600822924, 528734635, 1541459225]

/-- Big-endian bytes of `n`, `k` bytes wide. -/
def beBytes : Nat → Nat → List Nat
  | 0, _ => []
  | k + 1, n => beBytes k (n / 256) ++ [n % 256]

/-- SHA-256 message padding: 0x80, zeros to 56 mod 64, 8-byte bit length. -/
def padMessage (msg : List Nat) : List Nat :=
  msg ++ [0x80] ++ List.replicate ((119 - msg.length % 64) % 64) 0 ++ beBytes 8 (8 * msg.length)

/-- Group bytes into big-endian 32-bit words. -/
def toWords : List Nat → List Nat
  | a :: b :: c :: d :: rest => (a * 16777216 + b * 65536 + c * 256 + d) :: toWords rest
  | _ => []

/-- Extend the 16-word block schedule by `fuel` further words. -/
def extendSchedule : Nat → List Nat → List Nat
  | 0, ws => ws
  | fuel + 1, ws =>
    let t := (smallSigma1 (ws.getD (ws.length - 2) 0) + ws.getD (ws.length - 7) 0 +
              smallSigma0 (ws.getD (ws.length - 15) 0) + ws.getD (ws.length - 16) 0) % w32
    extendSchedule fuel (ws ++ [t])

/-- One SHA-256 compression round; `kw` is the round constant plus schedule word. -/
def roundStep (st : List Nat) (kw : Nat) : List Nat :=
  match st with
  | [a, b, c, d, e, f, g, h] =>
    let t1 := (h + bigSigma1 e + ch e f g + kw) % w32
    let t2 := (bigSigma0 a + maj a b c) % w32
    [(t1 + t2) % w32, a, b, c, (d + t1) % w32, e, f, g]
  | other => other

/-- Compress one 16-word block into the hash state. -/
def processBlock (st block : List Nat) : List Nat :=
  let ws := extendSchedule 48 block
  let kws := (K64.zip ws).map fun p => (p.1 + p.2) % w32
  let st2 := kws.foldl roundStep st
  (st.zip st2).map fun p => (p.1 + p.2) % w32

/-- Fold the compression function over all 16-word blocks. -/
def processBlocks : List Nat → List Nat → List Nat
  | st, w0 :: w1 :: w2 :: w3 :: w4 :: w5 :: w6 :: w7 ::
        w8 :: w9 :: w10 :: w11 :: w12 :: w13 :: w14 :: w15 :: rest =>
    processBlocks (processBlock st [w0, w1, w2, w3, w4, w5, w6, w7,
                                    w8, w9, w10, w11, w12, w13, w14, w15]) rest
  | st, _ => st

/-- SHA-256 digest (32 bytes) of a byte list. -/
def sha256 (msg : List Nat) : List Nat :=
  concatAll ((processBlocks H0 (toWords (padMessage msg))).map (beBytes 4))

/-- Lowercase hex digit character for `n < 16`. -/
def hexDigit (n : Nat) : Char := if n < 10 then Char.ofNat (48 + n) else Char.ofNat (87 + n)

/-- Two lowercase hex digits of a byte. -/
def hexByte (b : Nat) : List Char := [hexDigit (b / 16), hexDigit (b % 16)]

/-- Lowercase hex encoding of a byte list (encoding/hex `EncodeToString`). -/
def hexEncodeToString (bs : List Nat) : String := String.mk (concatAll (bs.map hexByte))

/-- hex-encoded SHA-256 of a byte list, as produced by
`hex.EncodeToString(sha256.Sum256(b)[:])` in the Go source. -/
def sha256hex (msg : List Nat) : String := hexEncodeToString (sha256 msg)

/-! ## Data model

The `commit` struct fields come from the `commitEntry` declaration in the
`cmd` package (the same shape `util.go` serialises); `dbTreeEntry` carries the
fields `createDBTreeID` reads (`AType`, `ShaSum`, `Name`). -/

structure commit where
  AuthorEmail : List Nat
  AuthorName : List Nat
  CommitterEmail : List Nat
  CommitterName : List Nat
  ID : List Nat
  Message : List Nat
  Parent : List Nat
  Timestamp : List Nat
  Tree : List Nat
deriving DecidableEq, Repr

structure dbTreeEntry where
  AType : List Nat
  ShaSum : List Nat
  Name : List Nat
deriving DecidableEq, Repr

/-! ## HashingEngine (createCommitID, createDBTreeID) -/

/-- The byte buffer `createCommitID` accumulates before hashing, line for line
from `util.go`: `tree` line, optional `parent` line (when `c.Parent != ""`),
`author` line, optional `committer` line (when `c.CommitterEmail != ""`),
then `"\n" + c.Message` and a null byte. -/
def commitBuffer (c : commit) : List Nat :=
  str "tree " ++ c.Tree ++ [10]
  ++ (if c.Parent = [] then [] else str "parent " ++ c.Parent ++ [10])
  ++ str "author " ++ c.AuthorName ++ str " <" ++ c.AuthorEmail ++ str "> "
    ++ c.Timestamp ++ [10]
  ++ (if c.CommitterEmail = [] then []
      else str "committer " ++ c.CommitterName ++ str " <" ++ c.CommitterEmail ++ str "> "
        ++ c.Timestamp ++ [10])
  ++ [10] ++ c.Message ++ [0]

/-- Function `createCommitID` from `util.go`: hex-encoded SHA-256 of the commit buffer. -/
def createCommitID (c : commit) : String := sha256hex (commitBuffer c)

/-- The bytes `createDBTreeID` writes for one tree entry: `AType`, null byte,
`ShaSum`, null byte, `Name` plus newline. -/
def treeEntryBuffer (e : dbTreeEntry) : List Nat :=
  e.AType ++ [0] ++ e.ShaSum ++ [0] ++ e.Name ++ [10]

/-- The byte buffer `createDBTreeID` accumulates over the entry list. -/
def treeBuffer (entries : List dbTreeEntry) : List Nat :=
  concatAll (entries.map treeEntryBuffer)

/-- Function `createDBTreeID` from `util.go`: hex-encoded SHA-256 of the tree buffer. -/
def createDBTreeID (entries : List dbTreeEntry) : String := sha256hex (treeBuffer entries)

/-! ## Spec-side serialisations

These two definitions are written from the words of the specification, to be
compared against the buffers built by the source functions above. -/

/-- A "line" in the sense of the specification: content bytes followed by a newline. -/
def specLine (content : List Nat) : List Nat := content ++ [10]

/-- The commit byte sequence as the specification words it: the line
`tree <treeID>`; then, only if the parent is non-empty, the line
`parent <parentID>`; then the line `author <name> <<email>> <timestamp>`;
then, only if a committer is set (non-empty committer email), the line
`committer <name> <<email>> <timestamp>`; then a blank line; then the raw
message bytes; then a single terminating null byte. -/
def specCommitBytes (c : commit) : List Nat :=
  specLine (str "tree " ++ c.Tree)
  ++ (if c.Parent = [] then [] else specLine (str "parent " ++ c.Parent))
  ++ specLine (str "author " ++ c.AuthorName ++ str " <" ++ c.AuthorEmail ++ str "> "
      ++ c.Timestamp)
  ++ (if c.CommitterEmail = [] then []
      else specLine (str "committer " ++ c.CommitterName ++ str " <" ++ c.CommitterEmail
        ++ str "> " ++ c.Timestamp))
  ++ specLine []
  ++ c.Message ++ [0]

/-- The tree byte sequence as the specification words it: for each entry, in
original order, the `EntryType` bytes, a null byte, the `ShaSum` bytes, a null
byte, the `Name`, and a newline, all concatenated. -/
def specTreeBytes (entries : List dbTreeEntry) : List Nat :=
  entries.foldr (fun e acc => e.AType ++ [0] ++ e.ShaSum ++ [0] ++ e.Name ++ [10] ++ acc) []

/-! ## ObjectStore and Index state

On-disk state is modelled as association lists from file key to content,
newest write first replaced in place.  `os.Stat` + read become `assocFind`;
`ioutil.WriteFile` becomes `assocWrite`. -/

def assocFind {κ α : Type} [DecidableEq κ] : List (κ × α) → κ → Option α
  | [], _ => none
  | (q, v) :: rest, k => if q = k then some v else assocFind rest k

def assocWrite {κ α : Type} [DecidableEq κ] : List (κ × α) → κ → α → List (κ × α)
  | [], k, v => [(k, v)]
  | (q, w) :: rest, k, v => if q = k then (k, v) :: rest else (q, w) :: assocWrite rest k v

/-- The `files/` directory: content-addressed blob files keyed by their hex
hash name. -/
abbrev FileStore := List (String × List Nat)

/-- Function `storeDatabase` from `util.go` (the `putBlob` of the spec): hash the bytes; if
no file exists at that hash, write it; if a file exists, compare only the
sizes and silently rewrite on a size mismatch, otherwise leave the store
untouched.  The Go error return covers only environmental I/O failures and
carries no integrity signal, so the model returns plainly. -/
def storeDatabase (fs : FileStore) (db : List Nat) : FileStore × String :=
  let t := sha256hex db
  match assocFind fs t with
  | none => (assocWrite fs t db, t)
  | some existing =>
    if db.length ≠ existing.length then (assocWrite fs t db, t)
    else (fs, t)

/-- Commit object files under `files/`, keyed by the `ID` field of the commit and
holding the serialised commit record (serialisation modelled as the record
value itself). -/
abbrev CommitStore := List (List Nat × commit)

/-- Function `storeCommit` from `util.go`: serialise `c` and write it at
`files/<c.ID>`, unconditionally — no field validation of any kind happens
before the write. -/
def storeCommit (cs : CommitStore) (c : commit) : CommitStore :=
  assocWrite cs c.ID c

/-- Per-database index files `meta/<dbPath>/index`, each holding the
serialised ordered commit list (serialisation modelled as the list value). -/
abbrev IndexStore := List (String × List commit)

/-- Function `storeIndex` from `util.go`: serialise the full ordered list and write it
at `meta/<dbPath>/index`. -/
def storeIndex (ms : IndexStore) (dbPath : String) (index : List commit) : IndexStore :=
  assocWrite ms dbPath index

/-- Function `getIndex` from `util.go`: read `meta/<dbPath>/index` and deserialise; a
missing file is the error case, modelled as `none`. -/
def getIndex (ms : IndexStore) (dbPath : String) : Option (List commit) :=
  assocFind ms dbPath

/-! ## Theorems -/

/-- Helper: the source commit buffer coincides with the claimed specification
commit byte sequence. -/
theorem commitBuffer_eq_specCommitBytes (c : commit) :
    commitBuffer c = specCommitBytes c := by
  by_cases hp : c.Parent = [] <;> by_cases hc : c.CommitterEmail = [] <;>
    simp [commitBuffer, specCommitBytes, specLine, hp, hc, List.append_assoc]

/-- C1: for every commit, the commit ID computed by `createCommitID` is the
lowercase hex SHA-256 of exactly the byte sequence the specification pins
down: the `tree` line; then, only if the parent is non-empty, the `parent`
line; then the `author <name> <<email>> <timestamp>` line; then, only if a
committer is set, the `committer` line; then a blank line; then the raw
message bytes; then a single terminating null byte. -/
theorem claim_C1_commit_id_is_sha256_of_spec_bytes (c : commit) :
    createCommitID c = sha256hex (specCommitBytes c) := by
  rw [createCommitID, commitBuffer_eq_specCommitBytes]

/-- C2: for every ordered list of tree entries, the tree ID computed by
`createDBTreeID` is the lowercase hex SHA-256 of the concatenation, in
original entry order, of the `EntryType` bytes of each entry, a null byte, its
`ShaSum` bytes, a null byte, its `Name`, and a newline. -/
theorem claim_C2_tree_id_is_sha256_of_spec_bytes (entries : List dbTreeEntry) :
    createDBTreeID entries = sha256hex (specTreeBytes entries) := by
  rw [createDBTreeID]
  congr 1
  induction entries with
  | nil => rfl
  | cons e es ih =>
    simp [treeBuffer, concatAll, treeEntryBuffer, specTreeBytes, List.append_assoc] at ih ⊢
    simpa [List.append_assoc] using ih

/-- C9: the commit ID computation never reads the own `ID` field of the commit:
replacing the `ID` field by an arbitrary value leaves `createCommitID`
unchanged. -/
theorem claim_C9_commit_id_ignores_id_field (c : commit) (x : List Nat) :
    createCommitID { c with ID := x } = createCommitID c := rfl

/-- C10: with an empty `CommitterEmail`, the committer name has no effect on
the commit ID: two commits identical in every field except `CommitterName`,
both with empty `CommitterEmail`, hash to the same ID. -/
theorem claim_C10_committer_name_irrelevant_without_email
    (c : commit) (n₁ n₂ : List Nat) :
    createCommitID { c with CommitterName := n₁, CommitterEmail := [] } =
      createCommitID { c with CommitterName := n₂, CommitterEmail := [] } := by
  simp [createCommitID, commitBuffer]

/-! ## Concrete inputs used by the remaining claims -/

/-- Two tree entries whose serialisations overlap: the first serialises to
`[0,0,10]`, the second to `[0,0,10,0,0,10]`, so both orders of the pair
concatenate to the same byte buffer. -/
def permEntryA : dbTreeEntry := ⟨[], [], []⟩

def permEntryB : dbTreeEntry := ⟨[], [], [10, 0, 0]⟩

/-- A representative tree entry named `a`. -/
def orderedEntryA : dbTreeEntry := ⟨str "db", str "sha-a", str "a"⟩

/-- A representative tree entry named `b`. -/
def orderedEntryB : dbTreeEntry := ⟨str "db", str "sha-b", str "b"⟩

/-- A root commit with author data only (no committer set). -/
def rootCommit : commit :=
  { AuthorEmail := str "alice@example.com"
    AuthorName := str "Alice"
    CommitterEmail := []
    CommitterName := []
    ID := []
    Message := str "init"
    Parent := []
    Timestamp := str "Mon Jan  2 15:04:05 UTC 2006"
    Tree := str "T1" }

/-- A commit whose `Message` is missing (empty), with every other required
field present. -/
def emptyMessageCommit : commit :=
  { AuthorEmail := str "alice@example.com"
    AuthorName := str "Alice"
    CommitterEmail := []
    CommitterName := []
    ID := str "c0"
    Message := []
    Parent := []
    Timestamp := str "Mon Jan  2 15:04:05 UTC 2006"
    Tree := str "T1" }

/-- C6 counterexample: two lists of tree entries that are permutations of one
another, in genuinely different order, yet hash to the same tree ID — the
entry field bytes may themselves contain null and newline bytes, so the
serialisation is not injective up to ordering. -/
theorem claim_C6_counterexample_perm_same_id :
    [permEntryA, permEntryB] ≠ [permEntryB, permEntryA] ∧
    List.Perm [permEntryA, permEntryB] [permEntryB, permEntryA] ∧
    createDBTreeID [permEntryA, permEntryB] = createDBTreeID [permEntryB, permEntryA] := by
  refine ⟨by decide, List.Perm.swap _ _ _, ?_⟩
  have h : treeBuffer [permEntryA, permEntryB] = treeBuffer [permEntryB, permEntryA] := by
    decide
  rw [createDBTreeID, createDBTreeID, h]

/-- C6 amended: permuting tree entries into a different order can and
typically does change the tree ID — for the representative distinct entries
named `a` and `b`, the two orders of the pair are permutations of each other
and yield distinct tree IDs — but this is not universal (see the
counterexample). -/
theorem claim_C6_amended_swap_changes_id :
    List.Perm [orderedEntryA, orderedEntryB] [orderedEntryB, orderedEntryA] ∧
    createDBTreeID [orderedEntryA, orderedEntryB] ≠
      createDBTreeID [orderedEntryB, orderedEntryA] := by
  refine ⟨List.Perm.swap _ _ _, by decide⟩

/-- C8 counterexample: a commit with no committer set does not hash as if the
committer defaulted to the author — explicitly setting the committer to the
author name and email inserts a `committer` line and changes the ID. -/
theorem claim_C8_counterexample_no_committer_default :
    createCommitID rootCommit ≠
      createCommitID { rootCommit with
        CommitterName := rootCommit.AuthorName,
        CommitterEmail := rootCommit.AuthorEmail } := by
  decide

/-- C8 amended: the committer fields are optional, but they do not default to
the author: for every commit with an empty `CommitterEmail`, the serialised
buffer simply omits the committer line, so the ID is computed as if no
committer existed at all. -/
theorem claim_C8_amended_empty_committer_omits_line (c : commit)
    (h : c.CommitterEmail = []) :
    createCommitID c = sha256hex (
      str "tree " ++ c.Tree ++ [10]
      ++ (if c.Parent = [] then [] else str "parent " ++ c.Parent ++ [10])
      ++ str "author " ++ c.AuthorName ++ str " <" ++ c.AuthorEmail ++ str "> "
        ++ c.Timestamp ++ [10]
      ++ [10] ++ c.Message ++ [0]) := by
  simp [createCommitID, commitBuffer, h]

/-- Witness for the amended C8 theorem at the concrete root commit. -/
theorem claim_C8_amended_witness :
    rootCommit.CommitterEmail = [] ∧
    createCommitID rootCommit = sha256hex (
      str "tree " ++ rootCommit.Tree ++ [10]
      ++ (if rootCommit.Parent = [] then [] else str "parent " ++ rootCommit.Parent ++ [10])
      ++ str "author " ++ rootCommit.AuthorName ++ str " <" ++ rootCommit.AuthorEmail
        ++ str "> " ++ rootCommit.Timestamp ++ [10]
      ++ [10] ++ rootCommit.Message ++ [0]) :=
  ⟨rfl, claim_C8_amended_empty_committer_omits_line rootCommit rfl⟩

/-- Helper: looking up the key just written into an association list returns
the value written. -/
theorem assocFind_assocWrite {κ α : Type} [DecidableEq κ]
    (l : List (κ × α)) (k : κ) (v : α) :
    assocFind (assocWrite l k v) k = some v := by
  induction l with
  | nil => simp [assocWrite, assocFind]
  | cons p rest ih =>
    obtain ⟨q, w⟩ := p
    by_cases h : q = k <;> simp [assocWrite, assocFind, h, ih]

/-- C3 (code bug): when a file already exists at the hash of the content with
different bytes of the same length, `storeDatabase` skips the write as a
no-op on the strength of the size comparison alone — the mismatched stored
object survives untouched and no integrity violation is ever signalled.
Here the store already holds `"xyz"` under the hash of `"abc"`; storing
`"abc"` leaves the corrupt `"xyz"` in place and returns the hash as a
success. -/
theorem claim_C3_size_only_check_keeps_mismatched_object :
    str "xyz" ≠ str "abc" ∧
    (str "xyz").length = (str "abc").length ∧
    storeDatabase [(sha256hex (str "abc"), str "xyz")] (str "abc") =
      ([(sha256hex (str "abc"), str "xyz")], sha256hex (str "abc")) := by
  refine ⟨by decide, by decide, ?_⟩
  simp [storeDatabase, assocFind, str]

/-- C4: the function `storeDatabase` (the `putBlob` of the spec) is idempotent — storing any
byte sequence twice into an empty store leaves exactly one object on disk
and returns the same hash both times — and the distinct sequences `"abc"`
and `"abcd"` produce two distinct stored objects with distinct hashes. -/
theorem claim_C4_putBlob_idempotent_and_injective_on_examples :
    (∀ db : List Nat,
      (storeDatabase (storeDatabase [] db).1 db).1 = (storeDatabase [] db).1 ∧
      (storeDatabase (storeDatabase [] db).1 db).2 = (storeDatabase [] db).2 ∧
      (storeDatabase [] db).1.length = 1) ∧
    (storeDatabase (storeDatabase [] (str "abc")).1 (str "abcd")).1.length = 2 ∧
    sha256hex (str "abc") ≠ sha256hex (str "abcd") := by
  refine ⟨fun db => ?_, by decide, by decide⟩
  simp [storeDatabase, assocFind, assocWrite]

/-- C5 (code bug): nothing rejects a commit with a missing message —
`createCommitID` happily hashes it (producing a full 64-character ID) and
`storeCommit` writes it to disk and mutates the store, with no validation
failure anywhere. -/
theorem claim_C5_missing_message_still_hashed_and_stored :
    emptyMessageCommit.Message = [] ∧
    (createCommitID emptyMessageCommit).length = 64 ∧
    storeCommit [] emptyMessageCommit = [(emptyMessageCommit.ID, emptyMessageCommit)] := by
  refine ⟨rfl, by decide, rfl⟩

/-- C7: index round-trip — for every prior index store, database path and
ordered commit list, storing the index and reading it back returns all
entries unchanged and in the same order; in particular appending a commit
`c` and reading returns all prior entries unchanged plus `c` last. -/
theorem claim_C7_index_round_trip (ms : IndexStore) (d : String) (index : List commit) :
    getIndex (storeIndex ms d index) d = some index ∧
    ∀ (prior : List commit) (c : commit),
      getIndex (storeIndex ms d (prior ++ [c])) d = some (prior ++ [c]) := by
  exact ⟨assocFind_assocWrite ms d index, fun prior c => assocFind_assocWrite ms d (prior ++ [c])⟩

end Dio
